import Mathlib

/-!
Verification of the client-side task pipeline of hyper-shell
(src/hypershell/client.py).

The three finite-state machines (ClientScheduler, TaskExecutor,
ClientCollector) are embedded shallowly: each machine is a record of its
mutable attributes plus its current state, and each Python action method
becomes a case of an explicit step function.  Nondeterministic inputs of a
step (what `queue.scheduled.get` returns, whether a local `Queue.put`
raises Full, what `Popen.wait` returns, `datetime.now()`) are passed as an
explicit environment value per step; a run folds the step function over a
list of environments.  A step that would raise an uncaught Python
exception (e.g. `tasks[-1]` on an empty list) returns `none`.

Packed tasks on the wire are opaque byte blobs round-tripped by
`Task.pack`/`Task.unpack`; the spec treats the codec as an opaque
byte-level round-trip, so bundles are modelled directly as `List Task`
with pack/unpack the identity.  Timestamps are integers (an abstract
totally ordered clock).
-/

namespace HyperShell

/-- The task record (hypershell.database.model.Task), restricted to the
fields the client reads or writes: id and args arrive from the server;
command, start_time, client_host, exit_status, completion_time are
populated by the executor. -/
structure Task where
  id : String
  args : String
  command : Option String := none
  start_time : Option Int := none
  completion_time : Option Int := none
  exit_status : Option Int := none
  client_host : Option String := none
  deriving DecidableEq, Repr

/-- Modelled from the spec: the client-host identifier HOSTNAME
(hypershell.core.logging, not under src/); an opaque host string. -/
def HOSTNAME : String := "client-host"

/-! ### Scheduler FSM (ClientScheduler) -/

/-- Finite states for scheduler (SchedulerState). -/
inductive SchedulerState where
  | START | GET_REMOTE | UNPACK | POP_TASK | PUT_LOCAL | HALT
  deriving DecidableEq, Repr

/-- What `queue.scheduled.get(timeout=2)` yields in one step: a timeout
(QueueEmpty), a non-null bundle, or the null disconnect sentinel. -/
inductive RemoteMsg where
  | empty
  | bundle (b : List Task)
  | disconnect
  deriving DecidableEq, Repr

/-- Per-step environment for the scheduler: the remote queue result
(read in GET_REMOTE) and whether `local.put(timeout=2)` succeeds rather
than raising QueueFull (read in PUT_LOCAL). -/
structure SchedEnv where
  remote : RemoteMsg
  putOk : Bool
  deriving DecidableEq, Repr

/-- Mutable attributes of ClientScheduler plus its current state.
`inboundHist` records every task successfully `put` on the local
`inbound` queue, in order (the queue's append history). -/
structure SchedulerS where
  state : SchedulerState
  bundle : List Task
  tasks : List Task
  task : Option Task
  final_task_id : Option String
  inboundHist : List Task
  deriving DecidableEq, Repr

/-- Initial scheduler: bundle and tasks empty, final_task_id None. -/
def schedInit : SchedulerS :=
  { state := .START, bundle := [], tasks := [], task := none
    final_task_id := none, inboundHist := [] }

/-- One step of ClientScheduler: the action method of the current state.
Returns `none` where the Python would raise an uncaught exception
(IndexError from `self.tasks[-1]` on an empty bundle in `unpack_bundle`,
or reading an attribute never assigned). -/
def schedulerStep (s : SchedulerS) (env : SchedEnv) : Option SchedulerS :=
  match s.state with
  | .START => some { s with state := .GET_REMOTE }
  | .GET_REMOTE =>
      match env.remote with
      | .empty => some { s with state := .GET_REMOTE }
      | .bundle b => some { s with bundle := b, state := .UNPACK }
      | .disconnect => some { s with state := .HALT }
  | .UNPACK =>
      match s.bundle.getLast? with
      | none => none
      | some last =>
          some { s with tasks := s.bundle, final_task_id := some last.id
                        state := .POP_TASK }
  | .POP_TASK =>
      match s.tasks with
      | [] => some { s with state := .GET_REMOTE }
      | t :: rest => some { s with task := some t, tasks := rest, state := .PUT_LOCAL }
  | .PUT_LOCAL =>
      match s.task with
      | none => none
      | some t =>
          if env.putOk then
            some { s with inboundHist := s.inboundHist ++ [t], state := .POP_TASK }
          else
            some { s with state := .PUT_LOCAL }
  | .HALT => some s

/-- Bundle(s) received from `scheduled` at this step: a step taken in
GET_REMOTE whose environment yields a non-null bundle records it. -/
def recvOf (s : SchedulerS) (e : SchedEnv) : List (List Task) :=
  match s.state with
  | .GET_REMOTE =>
      match e.remote with
      | .bundle b => [b]
      | _ => []
  | _ => []

/-- Instrumented run of the scheduler FSM loop: fold `schedulerStep` over
a list of per-step environments, accumulating the bundles received on
`scheduled`.  `none` propagates an uncaught exception. -/
def schedulerRunRec (s : SchedulerS) (envs : List SchedEnv)
    (rec : List (List Task)) : Option (SchedulerS × List (List Task)) :=
  match envs with
  | [] => some (s, rec)
  | e :: rest =>
      match schedulerStep s e with
      | none => none
      | some s' => schedulerRunRec s' rest (rec ++ recvOf s e)

/-- Run of the scheduler FSM loop (uninstrumented). -/
def schedulerRun (s : SchedulerS) : List SchedEnv → Option SchedulerS
  | [] => some s
  | e :: rest =>
      match schedulerStep s e with
      | none => none
      | some s' => schedulerRun s' rest

/-- ClientThread.register_final_task: `terminator.put(final_task_id.encode())`.
When `final_task_id` is None, `.encode()` raises AttributeError: the
result is `none`; otherwise the UTF-8 bytes of the id are published. -/
def registerFinalTask (fid : Option String) : Option (List UInt8) :=
  fid.map (fun s => s.toUTF8.toList)

/-! ### Local bounded queues -/

/-- What a local `Queue.get(timeout)` yields in one step: a timeout
(QueueEmpty), a task, or the null sentinel. -/
inductive LocalMsg where
  | empty
  | task (t : Task)
  | sentinel
  deriving DecidableEq, Repr

/-! ### Collector FSM (ClientCollector) -/

/-- Finite states of collector (CollectorState). -/
inductive CollectorState where
  | START | GET_LOCAL | CHECK_BUNDLE | PACK_BUNDLE | PUT_REMOTE | FINALIZE | HALT
  deriving DecidableEq, Repr

/-- Per-step environment for the collector: the current clock reading
(`datetime.now()`) and the result of `local.get(timeout=1)` on the
`outbound` queue. -/
structure CollEnv where
  now : Int
  localMsg : LocalMsg
  deriving DecidableEq, Repr

/-- Mutable attributes of ClientCollector plus its current state.
`completedHist` records every bundle pushed to the remote `completed`
channel, in order. -/
structure CollectorS where
  state : CollectorState
  tasks : List Task
  bundle : List Task
  previous_send : Int
  completedHist : List (List Task)
  deriving DecidableEq, Repr

/-- Initial collector: empty pending list and bundle. -/
def collInit : CollectorS :=
  { state := .START, tasks := [], bundle := [], previous_send := 0
    completedHist := [] }

/-- ClientCollector.put_remote: if the (already packed) bundle is
non-empty, push it to `completed`, clear pending tasks and bundle, and
reset `previous_send`; in either case the returned state is GET_LOCAL. -/
def collectorPutRemote (s : CollectorS) (env : CollEnv) : CollectorS :=
  if s.bundle ≠ [] then
    { s with completedHist := s.completedHist ++ [s.bundle]
             tasks := [], bundle := [], previous_send := env.now
             state := .GET_LOCAL }
  else
    { s with state := .GET_LOCAL }

/-- One step of ClientCollector.  `bundlesize` and `bundlewait` are the
constructor parameters; `task.pack()` is the identity on the modelled
task.  `finalize` invokes `put_remote` and then returns HALT. -/
def collectorStep (bundlesize : Nat) (bundlewait : Int)
    (s : CollectorS) (env : CollEnv) : CollectorS :=
  match s.state with
  | .START => { s with previous_send := env.now, state := .GET_LOCAL }
  | .GET_LOCAL =>
      match env.localMsg with
      | .empty => { s with state := .CHECK_BUNDLE }
      | .task t => { s with tasks := s.tasks ++ [t], state := .CHECK_BUNDLE }
      | .sentinel => { s with state := .FINALIZE }
  | .CHECK_BUNDLE =>
      if s.tasks.length ≥ bundlesize then
        { s with state := .PACK_BUNDLE }
      else if env.now - s.previous_send ≥ bundlewait then
        { s with state := .PACK_BUNDLE }
      else
        { s with state := .GET_LOCAL }
  | .PACK_BUNDLE => { s with bundle := s.tasks, state := .PUT_REMOTE }
  | .PUT_REMOTE => collectorPutRemote s env
  | .FINALIZE => { collectorPutRemote s env with state := .HALT }
  | .HALT => s

/-- Run of the collector FSM loop. -/
def collectorRun (bundlesize : Nat) (bundlewait : Int)
    (s : CollectorS) : List CollEnv → CollectorS
  | [] => s
  | e :: rest => collectorRun bundlesize bundlewait (collectorStep bundlesize bundlewait s e) rest

/-! ### Executor FSM (TaskExecutor) -/

/-- Finite states for task executor (TaskState). -/
inductive TaskState where
  | START | GET_LOCAL | START_TASK | WAIT_TASK | PUT_LOCAL | FINALIZE | HALT
  deriving DecidableEq, Repr

/-- Per-step environment for an executor: the clock, the result of
`inbound.get(timeout=1)`, the result of `process.wait(timeout=2)`
(`none` models TimeoutExpired, `some code` the child's exit status), and
whether `outbound.put(timeout=2)` succeeds rather than raising Full. -/
structure ExecEnv where
  now : Int
  localMsg : LocalMsg
  waitResult : Option Int
  putOk : Bool
  deriving DecidableEq, Repr

/-- Python `str.replace` of the source template, specialised to the
pattern `'\x7b\x7d'` (the two characters left brace, right brace): every
occurrence, scanned left to right without overlap, is replaced verbatim
by `args`.  From `self.template.replace('\x7b\x7d', self.task.args)`. -/
def renderArgs (args : List Char) : List Char → List Char
  | [] => []
  | [c] => [c]
  | c :: d :: rest =>
      if c = '{' ∧ d = '}' then args ++ renderArgs args rest
      else c :: renderArgs args (d :: rest)

/-- String-level command rendering used by `TaskExecutor.start_task`. -/
def renderString (template args : String) : String :=
  (renderArgs args.toList template.toList).asString

/-- Whether a character list contains an occurrence of the substitution
marker (left brace directly followed by right brace). -/
def hasMarker : List Char → Bool
  | [] => false
  | [_] => false
  | c :: d :: rest =>
      if c = '{' ∧ d = '}' then true else hasMarker (d :: rest)

/-- Mutable attributes of TaskExecutor plus its current state.
`spawnHist` records the id of every task for which a child process was
spawned (`Popen`), in order; `outboundHist` records every task
successfully `put` on the `outbound` queue, in order. -/
structure ExecutorS where
  state : TaskState
  task : Option Task
  spawnHist : List String
  outboundHist : List Task
  deriving DecidableEq, Repr

/-- Initial executor state. -/
def execInit : ExecutorS :=
  { state := .START, task := none, spawnHist := [], outboundHist := [] }

/-- One step of TaskExecutor: the action method of the current state.
In GET_LOCAL the null sentinel (falsy `self.task`) selects FINALIZE.
START_TASK renders the command, records the start timestamp and client
host, and spawns the child; WAIT_TASK records exit status and completion
timestamp once the child exits.  `none` models reading a task attribute
in a state where no task was ever assigned. -/
def executorStep (template : String) (s : ExecutorS) (env : ExecEnv) :
    Option ExecutorS :=
  match s.state with
  | .START => some { s with state := .GET_LOCAL }
  | .GET_LOCAL =>
      match env.localMsg with
      | .empty => some { s with state := .GET_LOCAL }
      | .task t => some { s with task := some t, state := .START_TASK }
      | .sentinel => some { s with task := none, state := .FINALIZE }
  | .START_TASK =>
      match s.task with
      | none => none
      | some t =>
          some { s with
                 task := some { t with
                                command := some (renderString template t.args)
                                start_time := some env.now
                                client_host := some HOSTNAME }
                 spawnHist := s.spawnHist ++ [t.id]
                 state := .WAIT_TASK }
  | .WAIT_TASK =>
      match s.task with
      | none => none
      | some t =>
          match env.waitResult with
          | none => some { s with state := .WAIT_TASK }
          | some code =>
              some { s with
                     task := some { t with
                                    exit_status := some code
                                    completion_time := some env.now }
                     state := .PUT_LOCAL }
  | .PUT_LOCAL =>
      match s.task with
      | none => none
      | some t =>
          if env.putOk then
            some { s with outboundHist := s.outboundHist ++ [t], state := .GET_LOCAL }
          else
            some { s with state := .PUT_LOCAL }
  | .FINALIZE => some { s with state := .HALT }
  | .HALT => some s

/-- Run of the executor FSM loop. -/
def executorRun (template : String) (s : ExecutorS) :
    List ExecEnv → Option ExecutorS
  | [] => some s
  | e :: rest =>
      match executorStep template s e with
      | none => none
      | some s' => executorRun template s' rest

/-! ### Client coordinator (ClientThread) -/

/-- Modelled from the spec: the module default bundle size
`default.client.bundlesize` (hypershell.core.config, not under src/);
the spec gives the default as 1. -/
def DEFAULT_BUNDLESIZE : Nat := 1

/-- The wiring produced by ClientThread constructor: capacities of the
two local queues, the parameters handed to the collector, and the
executor pool. -/
structure ClientThreadInit where
  num_tasks : Nat
  inbound_maxsize : Nat
  outbound_maxsize : Nat
  collector_bundlesize : Nat
  collector_bundlewait : Int
  executor_ids : List Nat
  executor_template : String
  deriving DecidableEq, Repr

/-- ClientThread constructor: `inbound` and `outbound` are created with
`Queue(maxsize=DEFAULT_BUNDLESIZE)`; the collector receives the
configured bundlesize and bundlewait; executors get ids `count+1` for
`count in range(num_tasks)` and the template. -/
def clientThreadInit (num_tasks : Nat) (bundlesize : Nat) (bundlewait : Int)
    (template : String) : ClientThreadInit :=
  { num_tasks := num_tasks
    inbound_maxsize := DEFAULT_BUNDLESIZE
    outbound_maxsize := DEFAULT_BUNDLESIZE
    collector_bundlesize := bundlesize
    collector_bundlewait := bundlewait
    executor_ids := (List.range num_tasks).map (· + 1)
    executor_template := template }

/-- Externally visible actions of the coordinator's run/shutdown
sequence, in program order. -/
inductive CoordEvent where
  | awaitScheduler
  | putInboundSentinel
  | awaitExecutor (i : Nat)
  | putOutboundSentinel
  | awaitCollector
  | publishTerminator (id : String)
  deriving DecidableEq, Repr

/-- ClientThread.wait_scheduler: `self.scheduler.join()`. -/
def waitSchedulerEvents : List CoordEvent := [.awaitScheduler]

/-- ClientThread.wait_executors: put one None per executor on `inbound`,
then join each executor thread. -/
def waitExecutorsEvents (num_tasks : Nat) : List CoordEvent :=
  List.replicate num_tasks .putInboundSentinel
    ++ (List.range num_tasks).map (fun i => .awaitExecutor (i + 1))

/-- ClientThread.wait_collector: put None on `outbound`, then join the
collector thread. -/
def waitCollectorEvents : List CoordEvent := [.putOutboundSentinel, .awaitCollector]

/-- ClientThread.run after start_threads: wait_scheduler, then
wait_executors, then wait_collector, then register_final_task (which
publishes `fid` on the `terminator` channel). -/
def clientRunEvents (num_tasks : Nat) (fid : String) : List CoordEvent :=
  waitSchedulerEvents ++ waitExecutorsEvents num_tasks
    ++ waitCollectorEvents ++ [.publishTerminator fid]

/-! ### Invariants -/

/-- The terminal-id candidate agrees with the last bundle of `rec`: if no
bundle was received it is still unset, otherwise it is the id of the last
task of the last received bundle. -/
def lastIdOk (fid : Option String) (rec : List (List Task)) : Prop :=
  match rec.getLast? with
  | none => fid = none
  | some b => ∃ t, b.getLast? = some t ∧ fid = some t.id

/-- Relation between a scheduler state and the bundles received so far:
between reception (GET_REMOTE) and unpacking, the candidate still
reflects the previous bundle; in every other state it reflects the last
received bundle. -/
def schedRecInv (s : SchedulerS) (rec : List (List Task)) : Prop :=
  if s.state = SchedulerState.UNPACK then
    rec.getLast? = some s.bundle ∧ lastIdOk s.final_task_id rec.dropLast
  else
    lastIdOk s.final_task_id rec

/-- Tasks held by the scheduler that are not yet on `inbound`: the task
in hand while retrying PUT_LOCAL, plus the unpopped task list. -/
def schedPending (s : SchedulerS) : List Task :=
  (match s.state with
   | SchedulerState.PUT_LOCAL => s.task.toList
   | _ => []) ++ s.tasks

/-- Invariant of the bundle-draining phase: the queue history plus the
pending tasks is constant, and arriving back at GET_REMOTE means every
pending task was pushed. -/
def schedDrainInv (base : List Task) (s : SchedulerS) : Prop :=
  (s.state = SchedulerState.POP_TASK ∨ s.state = SchedulerState.PUT_LOCAL
      ∨ s.state = SchedulerState.GET_REMOTE) ∧
  (s.state = SchedulerState.PUT_LOCAL → s.task.isSome = true) ∧
  (s.state = SchedulerState.GET_REMOTE → s.tasks = []) ∧
  s.inboundHist ++ schedPending s = base

/-- Invariant of a scheduler that has never received a bundle: it can
only be in START, GET_REMOTE or HALT, with the candidate unset. -/
def schedIdleInv (s : SchedulerS) : Prop :=
  (s.state = SchedulerState.START ∨ s.state = SchedulerState.GET_REMOTE
      ∨ s.state = SchedulerState.HALT) ∧
  s.final_task_id = none

/-- A completion record fit for `outbound`: exit status set, both
timestamps set, and completion no earlier than start. -/
def goodTask (t : Task) : Prop :=
  t.exit_status.isSome = true ∧
  match t.start_time, t.completion_time with
  | some a, some b => a ≤ b
  | _, _ => False

/-- The clock readings of an environment list are nondecreasing and
bounded below by `c`. -/
def nowsMono : Int → List ExecEnv → Prop
  | _, [] => True
  | c, e :: rest => c ≤ e.now ∧ nowsMono e.now rest

/-- Executor invariant at clock bound `c`: everything on `outbound` is a
good completion record; while waiting, the running task's start time is
at most `c`; while pushing, the task in hand is already a good record. -/
def execInv (c : Int) (s : ExecutorS) : Prop :=
  (∀ t ∈ s.outboundHist, goodTask t) ∧
  (s.state = TaskState.WAIT_TASK →
      ∃ t a, s.task = some t ∧ t.start_time = some a ∧ a ≤ c) ∧
  (s.state = TaskState.PUT_LOCAL → ∃ t, s.task = some t ∧ goodTask t)

/-! ### Concrete fixtures -/

/-- A first concrete task as delivered by the server. -/
def taskA : Task := { id := "t1", args := "echo hi" }

/-- A second concrete task as delivered by the server. -/
def taskB : Task := { id := "t2", args := "echo bye" }

/-- The identity template (DEFAULT_TEMPLATE), one substitution marker. -/
def tplW : String := List.asString ['{', '}']

/-- Scheduler environments: receive the bundle [taskA, taskB], push both
tasks, then receive the disconnect sentinel. -/
def envsC1W : List SchedEnv :=
  [⟨.empty, true⟩, ⟨.bundle [taskA, taskB], true⟩, ⟨.empty, true⟩,
   ⟨.empty, true⟩, ⟨.empty, true⟩, ⟨.empty, true⟩,
   ⟨.empty, true⟩, ⟨.empty, true⟩, ⟨.disconnect, true⟩]

/-- The scheduler state after running `envsC1W` from `schedInit`. -/
def sC1W : SchedulerS :=
  { state := .HALT, bundle := [taskA, taskB], tasks := [], task := some taskB
    final_task_id := some taskB.id, inboundHist := [taskA, taskB] }

/-- Collector environments exhibiting the finalize behaviour: one task
arrives, no flush condition fires, then the null sentinel arrives. -/
def envsC2W : List CollEnv :=
  [⟨0, .empty⟩, ⟨0, .task taskA⟩, ⟨0, .empty⟩, ⟨0, .sentinel⟩, ⟨0, .empty⟩]

/-- A collector state sitting in CHECK_BUNDLE with two pending tasks. -/
def sCheckW : CollectorS :=
  { state := .CHECK_BUNDLE, tasks := [taskA, taskB], bundle := []
    previous_send := 0, completedHist := [] }

/-- A collector environment one second after the last flush. -/
def envCW : CollEnv := { now := 1, localMsg := .empty }

/-- Executor environments: receive taskA, start it at time 1, see it
exit with status 0 at time 2, and push it out. -/
def envsC5W : List ExecEnv :=
  [⟨0, .empty, none, true⟩, ⟨0, .task taskA, none, true⟩,
   ⟨1, .empty, none, true⟩, ⟨2, .empty, some 0, true⟩,
   ⟨2, .empty, none, true⟩]

/-- taskA once completed through `envsC5W` under the identity template. -/
def taskDoneW : Task :=
  { taskA with command := some taskA.args, start_time := some 1
               completion_time := some 2, exit_status := some 0
               client_host := some HOSTNAME }

/-- The executor state after running `envsC5W` from `execInit`. -/
def sC5W : ExecutorS :=
  { state := .GET_LOCAL, task := some taskDoneW
    spawnHist := [taskA.id], outboundHist := [taskDoneW] }

/-- An executor ready to pull its next task. -/
def execGetLocalW : ExecutorS := { execInit with state := .GET_LOCAL }

/-- A concrete terminal task id. -/
def fidW : String := "t7"

/-- A scheduler environment in which `scheduled.get` times out and the
local put would succeed. -/
def emptyEnvW : SchedEnv := ⟨.empty, true⟩

/-- A scheduler environment delivering the disconnect sentinel. -/
def disconnectEnvW : SchedEnv := ⟨.disconnect, true⟩

/-- A scheduler environment in which the local `inbound` queue is full. -/
def fullPutEnvW : SchedEnv := ⟨.empty, false⟩

/-- A scheduler about to unpack the bundle [taskA, taskB]. -/
def sUnpackW : SchedulerS :=
  { state := .UNPACK, bundle := [taskA, taskB], tasks := [], task := none
    final_task_id := none, inboundHist := [] }

/-- Scheduler environments draining the unpacked bundle, with one
full-queue retry on the first task. -/
def envsC9W : List SchedEnv :=
  [emptyEnvW, emptyEnvW, fullPutEnvW, emptyEnvW, emptyEnvW, emptyEnvW, emptyEnvW]

/-- The scheduler state after draining `sUnpackW` through `envsC9W`. -/
def sC9W : SchedulerS :=
  { state := .GET_REMOTE, bundle := [taskA, taskB], tasks := [], task := some taskB
    final_task_id := some taskB.id, inboundHist := [taskA, taskB] }

/-- The scheduler state after a run that saw no bundle, only the
disconnect sentinel. -/
def sC10W : SchedulerS := { schedInit with state := .HALT }

/-- A concrete marker-free template prefix. -/
def preW : List Char := "echo ".toList

/-- A concrete marker-free template suffix. -/
def postW : List Char := " end".toList

/-- A concrete argument string for rendering. -/
def argsW : List Char := "hi".toList

/-- A task as it looks right after START_TASK: rendered command, start
timestamp `a`, client host recorded. -/
def startedTask (template : String) (t : Task) (a : Int) : Task :=
  { t with command := some (renderString template t.args)
           start_time := some a, client_host := some HOSTNAME }

/-- A task as it looks after WAIT_TASK observes exit status `c` at time
`b`: the completed record forwarded to `outbound`. -/
def failedTask (template : String) (t : Task) (a b c : Int) : Task :=
  { startedTask template t a with exit_status := some c
                                  completion_time := some b }

/-- An executor environment delivering task `t` from `inbound` at time `a`. -/
def getTaskEnv (a : Int) (t : Task) : ExecEnv := ⟨a, .task t, none, true⟩

/-- An executor environment at time `a` in which `process.wait` times out. -/
def waitEnv (a : Int) : ExecEnv := ⟨a, .empty, none, true⟩

/-- An executor environment at time `b` in which the child exits with
status `c`. -/
def exitEnv (b c : Int) : ExecEnv := ⟨b, .empty, some c, true⟩

/-- An executor environment at time `b` in which the outbound put raises
Full. -/
def fullEnv (b : Int) : ExecEnv := ⟨b, .empty, none, false⟩

/-- An executor environment at time `b` in which the outbound put
succeeds. -/
def okPutEnv (b : Int) : ExecEnv := ⟨b, .empty, none, true⟩

/-- Executor environments for one task whose child exits with status
`c`: receive `t`, start it at time `a`, poll the child `k` times without
result, observe exit `c` at time `b`, fail the outbound put `m` times,
then succeed. -/
def execFailEnvs (t : Task) (a b c : Int) (k m : Nat) : List ExecEnv :=
  getTaskEnv a t :: waitEnv a ::
    (List.replicate k (waitEnv a) ++
      (exitEnv b c :: (List.replicate m (fullEnv b) ++ [okPutEnv b])))

/-! ## Theorems -/

/-- Replacement is the identity on a marker-free character list. -/
theorem hsAux_renderArgs_no_marker (args : List Char) :
    ∀ l : List Char, hasMarker l = false → renderArgs args l = l := by
  intro l
  induction l with
  | nil => intro _; rfl
  | cons c rest ih =>
    intro h
    cases rest with
    | nil => rfl
    | cons d rest' =>
      by_cases hcd : c = '{' ∧ d = '}'
      · rw [hasMarker, if_pos hcd] at h
        exact absurd h (by simp)
      · rw [hasMarker, if_neg hcd] at h
        rw [renderArgs, if_neg hcd, ih h]

/-- Substituting into a template with a single marker splices the raw
argument list verbatim between the marker-free prefix and suffix. -/
theorem hsAux_render_single_marker (args : List Char) :
    ∀ pre post : List Char, hasMarker pre = false → hasMarker post = false →
      renderArgs args (pre ++ '{' :: '}' :: post) = pre ++ args ++ post := by
  intro pre
  induction pre with
  | nil =>
    intro post _ hpost
    rw [List.nil_append, renderArgs, if_pos ⟨rfl, rfl⟩,
        hsAux_renderArgs_no_marker args post hpost]
    simp
  | cons c pre' ih =>
    intro post hpre hpost
    cases pre' with
    | nil =>
      have hcd : ¬ (c = '{' ∧ '{' = '}') := by simp
      rw [List.cons_append, List.nil_append, renderArgs, if_neg hcd,
          renderArgs, if_pos ⟨rfl, rfl⟩,
          hsAux_renderArgs_no_marker args post hpost]
      simp
    | cons p pre'' =>
      by_cases hcd : c = '{' ∧ p = '}'
      · rw [hasMarker, if_pos hcd] at hpre
        exact absurd hpre (by simp)
      · rw [hasMarker, if_neg hcd] at hpre
        rw [List.cons_append, List.cons_append, renderArgs, if_neg hcd,
            ← List.cons_append, ih post hpre hpost]
        simp

/-- C8: the rendered command is the template with every occurrence of
the substitution marker replaced verbatim (no quoting or escaping) by the
raw argument string; under the single-marker assumption (marker-free
prefix and suffix) the result is exactly prefix ++ args ++ suffix, and
START_TASK stores exactly this rendering on the task. -/
theorem hs_C8_render (pre post args : List Char)
    (hpre : hasMarker pre = false) (hpost : hasMarker post = false) :
    renderArgs args (pre ++ '{' :: '}' :: post) = pre ++ args ++ post ∧
    (∀ (template : String) (s : ExecutorS) (env : ExecEnv) (t : Task),
      s.state = TaskState.START_TASK → s.task = some t →
      executorStep template s env =
        some { s with
               task := some { t with command := some (renderString template t.args)
                                     start_time := some env.now
                                     client_host := some HOSTNAME }
               spawnHist := s.spawnHist ++ [t.id]
               state := TaskState.WAIT_TASK }) := by
  constructor
  · exact hsAux_render_single_marker args pre post hpre hpost
  · intro template s env t hst htask
    obtain ⟨st, tk, sp, ob⟩ := s
    cases hst
    cases htask
    rfl

/-- C8 witness: rendering a concrete one-marker template splices the
argument verbatim. -/
theorem hs_C8_witness :
    renderArgs argsW (preW ++ '{' :: '}' :: postW) = preW ++ argsW ++ postW :=
  (hs_C8_render preW postW argsW (by decide) (by decide)).1

/-- The executor invariant is preserved by every successful step, with
the clock bound advanced to the step's clock reading. -/
theorem hsAux_execInv_step (template : String) (c : Int) (s s' : ExecutorS)
    (e : ExecEnv) (hc : c ≤ e.now) (hinv : execInv c s)
    (hstep : executorStep template s e = some s') : execInv e.now s' := by
  obtain ⟨h1, h2, h3⟩ := hinv
  obtain ⟨st, tk, sp, ob⟩ := s
  obtain ⟨en, em, ew, ep⟩ := e
  simp only at hc h1 h2 h3 ⊢
  cases st
  · injection hstep with h
    subst h
    exact ⟨h1, fun h => TaskState.noConfusion h, fun h => TaskState.noConfusion h⟩
  · cases em
    · injection hstep with h
      subst h
      exact ⟨h1, fun h => TaskState.noConfusion h, fun h => TaskState.noConfusion h⟩
    · injection hstep with h
      subst h
      exact ⟨h1, fun h => TaskState.noConfusion h, fun h => TaskState.noConfusion h⟩
    · injection hstep with h
      subst h
      exact ⟨h1, fun h => TaskState.noConfusion h, fun h => TaskState.noConfusion h⟩
  · cases tk with
    | none => cases hstep
    | some t =>
        injection hstep with h
        subst h
        refine ⟨h1, fun _ => ?_, fun h => TaskState.noConfusion h⟩
        exact ⟨_, en, rfl, rfl, le_refl en⟩
  · cases tk with
    | none => cases hstep
    | some t =>
        obtain ⟨t0, a, htk, hstart, ha⟩ := h2 rfl
        obtain rfl : t = t0 := Option.some.inj htk
        cases ew
        · injection hstep with h
          subst h
          refine ⟨h1, fun _ => ⟨t, a, rfl, hstart, le_trans ha hc⟩,
                  fun h => TaskState.noConfusion h⟩
        · injection hstep with h
          subst h
          refine ⟨h1, fun h => TaskState.noConfusion h, fun _ => ?_⟩
          refine ⟨_, rfl, ?_, ?_⟩
          · rfl
          · show (match t.start_time, some en with
                  | some a, some b => a ≤ b
                  | _, _ => False : Prop)
            rw [hstart]
            exact le_trans ha hc
  · cases tk with
    | none => cases hstep
    | some t =>
        obtain ⟨t0, htk, hgood⟩ := h3 rfl
        obtain rfl : t = t0 := Option.some.inj htk
        cases ep
        · injection hstep with h
          subst h
          exact ⟨h1, fun h => TaskState.noConfusion h, fun _ => ⟨t, rfl, hgood⟩⟩
        · injection hstep with h
          subst h
          refine ⟨?_, fun h => TaskState.noConfusion h, fun h => TaskState.noConfusion h⟩
          intro x hx
          rcases List.mem_append.mp hx with hx | hx
          · exact h1 x hx
          · rcases List.mem_singleton.mp hx with rfl
            exact hgood
  · injection hstep with h
    subst h
    exact ⟨h1, fun h => TaskState.noConfusion h, fun h => TaskState.noConfusion h⟩
  · injection hstep with h
    subst h
    exact ⟨h1, fun h => TaskState.noConfusion h, fun h => TaskState.noConfusion h⟩

/-- Along any run with nondecreasing clock readings, every task pushed
to `outbound` is a good completion record. -/
theorem hsAux_execInv_run (template : String) :
    ∀ (envs : List ExecEnv) (c : Int) (s s' : ExecutorS),
      execInv c s → nowsMono c envs →
      executorRun template s envs = some s' →
      ∀ t ∈ s'.outboundHist, goodTask t := by
  intro envs
  induction envs with
  | nil =>
      intro c s s' hinv _ hrun
      injection hrun with h
      subst h
      exact hinv.1
  | cons e rest ih =>
      intro c s s' hinv hmono hrun
      rw [executorRun] at hrun
      cases hstep : executorStep template s e with
      | none => rw [hstep] at hrun; cases hrun
      | some s1 =>
          rw [hstep] at hrun
          exact ih e.now s1 s' (hsAux_execInv_step template c s s1 e hmono.1 hinv hstep)
            hmono.2 hrun

/-- C5: for every task the executor enqueues onto `outbound` (under a
monotone clock), the exit status, start timestamp and completion
timestamp are all set at enqueue time, and completion ≥ start. -/
theorem hs_C5_outbound_records (template : String) (c : Int)
    (envs : List ExecEnv) (s' : ExecutorS) (t : Task)
    (hmono : nowsMono c envs)
    (hrun : executorRun template execInit envs = some s')
    (hmem : t ∈ s'.outboundHist) :
    t.exit_status.isSome = true ∧ t.start_time.isSome = true ∧
    t.completion_time.isSome = true ∧
    ∀ a b, t.start_time = some a → t.completion_time = some b → a ≤ b := by
  have hinit : execInv c execInit :=
    ⟨(by intro x hx; cases hx), fun h => TaskState.noConfusion h,
     fun h => TaskState.noConfusion h⟩
  have hg := hsAux_execInv_run template envs c execInit s' hinit hmono hrun t hmem
  obtain ⟨hx, hmatch⟩ := hg
  cases hst : t.start_time with
  | none => rw [hst] at hmatch; exact hmatch.elim
  | some a =>
      cases hct : t.completion_time with
      | none => rw [hst, hct] at hmatch; exact hmatch.elim
      | some b =>
          rw [hst, hct] at hmatch
          refine ⟨hx, rfl, rfl, ?_⟩
          intro a' b' ha' hb'
          injection ha' with ha'
          injection hb' with hb'
          rw [← ha', ← hb']
          exact hmatch

/-- C5 witness: the task completed through `envsC5W` carries exit
status, start and completion timestamps. -/
theorem hs_C5_witness :
    taskDoneW.exit_status.isSome = true ∧ taskDoneW.start_time.isSome = true ∧
    taskDoneW.completion_time.isSome = true := by
  have h := hs_C5_outbound_records tplW 0 envsC5W sC5W taskDoneW
    ⟨by decide, by decide, by decide, by decide, by decide, trivial⟩
    rfl (by rw [sC5W]; exact List.mem_singleton.mpr rfl)
  exact ⟨h.1, h.2.1, h.2.2.1⟩

/-- Updating an executor's state to its current value is the identity. -/
theorem hsAux_exec_wait_loop (template : String) (s : ExecutorS)
    (hst : s.state = TaskState.WAIT_TASK) (t : Task) (htk : s.task = some t)
    (k : Nat) (e : ExecEnv) (he : e.waitResult = none) (rest : List ExecEnv) :
    executorRun template s (List.replicate k e ++ rest) =
      executorRun template s rest := by
  induction k with
  | zero => rfl
  | succ n ih =>
      rw [List.replicate_succ, List.cons_append, executorRun]
      have hstep : executorStep template s e = some s := by
        obtain ⟨st, tk, sp, ob⟩ := s
        obtain ⟨en, em, ew, ep⟩ := e
        cases hst
        cases htk
        simp only at he
        subst he
        rfl
      rw [hstep]
      exact ih

/-- While the outbound queue stays full, PUT_LOCAL self-loops without
changing the executor. -/
theorem hsAux_exec_put_loop (template : String) (s : ExecutorS)
    (hst : s.state = TaskState.PUT_LOCAL) (t : Task) (htk : s.task = some t)
    (m : Nat) (e : ExecEnv) (he : e.putOk = false) (rest : List ExecEnv) :
    executorRun template s (List.replicate m e ++ rest) =
      executorRun template s rest := by
  induction m with
  | zero => rfl
  | succ n ih =>
      rw [List.replicate_succ, List.cons_append, executorRun]
      have hstep : executorStep template s e = some s := by
        obtain ⟨st, tk, sp, ob⟩ := s
        obtain ⟨en, em, ew, ep⟩ := e
        cases hst
        cases htk
        simp only at he
        subst he
        rfl
      rw [hstep]
      exact ih

/-- C6: a task whose child process exits with a non-zero status is not
retried and does not crash the executor: the child is spawned exactly
once, and after any number of wait timeouts and full-queue retries the
task reaches `outbound` with its actual exit status, rendered command,
and unchanged id and args, the executor returning to GET_LOCAL. -/
theorem hs_C6_failure_forwarded (template : String) (s : ExecutorS) (t : Task)
    (a b c : Int) (k m : Nat)
    (hst : s.state = TaskState.GET_LOCAL) (hnz : c ≠ 0) :
    executorRun template s (execFailEnvs t a b c k m) =
      some { s with
             task := some (failedTask template t a b c)
             spawnHist := s.spawnHist ++ [t.id]
             outboundHist := s.outboundHist ++ [failedTask template t a b c]
             state := TaskState.GET_LOCAL } ∧
    (failedTask template t a b c).exit_status = some c ∧
    (failedTask template t a b c).id = t.id ∧
    (failedTask template t a b c).args = t.args ∧
    (failedTask template t a b c).command = some (renderString template t.args) := by
  obtain ⟨st, tk, sp, ob⟩ := s
  cases hst
  refine ⟨?_, rfl, rfl, rfl, rfl⟩
  have hw := hsAux_exec_wait_loop template
      ⟨TaskState.WAIT_TASK, some (startedTask template t a), sp ++ [t.id], ob⟩
      rfl (startedTask template t a) rfl k (waitEnv a) rfl
      (exitEnv b c :: (List.replicate m (fullEnv b) ++ [okPutEnv b]))
  have hp := hsAux_exec_put_loop template
      ⟨TaskState.PUT_LOCAL, some (failedTask template t a b c), sp ++ [t.id], ob⟩
      rfl (failedTask template t a b c) rfl m (fullEnv b) rfl [okPutEnv b]
  calc executorRun template ⟨TaskState.GET_LOCAL, tk, sp, ob⟩ (execFailEnvs t a b c k m)
      = executorRun template
          ⟨TaskState.WAIT_TASK, some (startedTask template t a), sp ++ [t.id], ob⟩
          (List.replicate k (waitEnv a) ++
            (exitEnv b c :: (List.replicate m (fullEnv b) ++ [okPutEnv b]))) := rfl
    _ = executorRun template
          ⟨TaskState.WAIT_TASK, some (startedTask template t a), sp ++ [t.id], ob⟩
          (exitEnv b c :: (List.replicate m (fullEnv b) ++ [okPutEnv b])) := hw
    _ = executorRun template
          ⟨TaskState.PUT_LOCAL, some (failedTask template t a b c), sp ++ [t.id], ob⟩
          (List.replicate m (fullEnv b) ++ [okPutEnv b]) := rfl
    _ = executorRun template
          ⟨TaskState.PUT_LOCAL, some (failedTask template t a b c), sp ++ [t.id], ob⟩
          [okPutEnv b] := hp
    _ = some ⟨TaskState.GET_LOCAL, some (failedTask template t a b c), sp ++ [t.id],
          ob ++ [failedTask template t a b c]⟩ := rfl

/-- C6 witness: a concrete task exiting with status 7 after one wait
timeout and one full-queue retry still completes the round trip. -/
theorem hs_C6_witness :
    (executorRun tplW execGetLocalW (execFailEnvs taskA 1 2 7 1 1)).isSome = true := by
  have h := hs_C6_failure_forwarded tplW execGetLocalW taskA 1 2 7 1 1 rfl (by decide)
  rw [h.1]
  rfl

/-- The coordinator's run/shutdown trace in flattened form. -/
theorem hsAux_clientRunEvents_eq (n : Nat) (fid : String) :
    clientRunEvents n fid =
      CoordEvent.awaitScheduler ::
        (List.replicate n CoordEvent.putInboundSentinel ++
          ((List.range n).map (fun i => CoordEvent.awaitExecutor (i + 1)) ++
            [CoordEvent.putOutboundSentinel, CoordEvent.awaitCollector,
             CoordEvent.publishTerminator fid])) := by
  simp [clientRunEvents, waitSchedulerEvents, waitExecutorsEvents, waitCollectorEvents]

/-- Position-by-position characterisation of the coordinator trace. -/
theorem hsAux_clientRunEvents_getElem (n : Nat) (fid : String) (i : Nat) :
    (clientRunEvents n fid)[i]? =
      if i = 0 then some CoordEvent.awaitScheduler
      else if i < n + 1 then some CoordEvent.putInboundSentinel
      else if i < 2 * n + 1 then some (CoordEvent.awaitExecutor (i - n))
      else if i = 2 * n + 1 then some CoordEvent.putOutboundSentinel
      else if i = 2 * n + 2 then some CoordEvent.awaitCollector
      else if i = 2 * n + 3 then some (CoordEvent.publishTerminator fid)
      else none := by
  rw [hsAux_clientRunEvents_eq]
  cases i with
  | zero => simp
  | succ i' =>
      rw [List.getElem?_cons_succ, List.getElem?_append, List.length_replicate]
      by_cases h1 : i' < n
      · rw [if_pos h1, List.getElem?_replicate, if_pos h1,
            if_neg (by omega : ¬ (i' + 1 = 0)), if_pos (by omega : i' + 1 < n + 1)]
      · rw [if_neg h1, List.getElem?_append, List.length_map, List.length_range]
        by_cases h2 : i' - n < n
        · rw [if_pos h2, List.getElem?_map, List.getElem?_range h2,
              if_neg (by omega : ¬ (i' + 1 = 0)),
              if_neg (by omega : ¬ (i' + 1 < n + 1)),
              if_pos (by omega : i' + 1 < 2 * n + 1)]
          have harith : i' - n + 1 = i' + 1 - n := by omega
          rw [← harith]
          rfl
        · rw [if_neg h2,
              if_neg (by omega : ¬ (i' + 1 = 0)),
              if_neg (by omega : ¬ (i' + 1 < n + 1)),
              if_neg (by omega : ¬ (i' + 1 < 2 * n + 1))]
          rcases e : i' - n - n with _ | _ | _ | j
          · rw [if_pos (by omega : i' + 1 = 2 * n + 1)]
            rfl
          · rw [if_neg (by omega : ¬ (i' + 1 = 2 * n + 1)),
                if_pos (by omega : i' + 1 = 2 * n + 2)]
            rfl
          · rw [if_neg (by omega : ¬ (i' + 1 = 2 * n + 1)),
                if_neg (by omega : ¬ (i' + 1 = 2 * n + 2)),
                if_pos (by omega : i' + 1 = 2 * n + 3)]
            rfl
          · rw [if_neg (by omega : ¬ (i' + 1 = 2 * n + 1)),
                if_neg (by omega : ¬ (i' + 1 = 2 * n + 2)),
                if_neg (by omega : ¬ (i' + 1 = 2 * n + 3))]
            rfl

/-- C7: the coordinator's shutdown sequence is strictly ordered: it
awaits the Scheduler first, then positions 1..n hold the n inbound null
sentinels, positions n+1..2n the n executor joins, then the outbound
null sentinel, then the Collector join, and only at the final position
2n+3 — strictly after the Collector join at 2n+2 — is the terminal id
published on `terminator`. -/
theorem hs_C7_shutdown_order (n : Nat) (fid : String) :
    (clientRunEvents n fid).length = 2 * n + 4 ∧
    (clientRunEvents n fid)[0]? = some CoordEvent.awaitScheduler ∧
    (∀ i, (clientRunEvents n fid)[i]? = some CoordEvent.putInboundSentinel ↔
        (1 ≤ i ∧ i < n + 1)) ∧
    (∀ i, (∃ k, (clientRunEvents n fid)[i]? = some (CoordEvent.awaitExecutor k)) ↔
        (n + 1 ≤ i ∧ i < 2 * n + 1)) ∧
    (∀ i, (clientRunEvents n fid)[i]? = some CoordEvent.putOutboundSentinel ↔
        i = 2 * n + 1) ∧
    (∀ i, (clientRunEvents n fid)[i]? = some CoordEvent.awaitCollector ↔
        i = 2 * n + 2) ∧
    (∀ i j, (clientRunEvents n fid)[i]? = some (CoordEvent.publishTerminator j) ↔
        (i = 2 * n + 3 ∧ j = fid)) := by
  refine ⟨?_, ?_, ?_, ?_, ?_, ?_, ?_⟩
  · rw [hsAux_clientRunEvents_eq]
    simp only [List.length_cons, List.length_append, List.length_replicate,
      List.length_map, List.length_range, List.length_nil]
    omega
  · rw [hsAux_clientRunEvents_getElem]
    rfl
  · intro i
    rw [hsAux_clientRunEvents_getElem]
    split_ifs <;> simp <;> omega
  · intro i
    rw [hsAux_clientRunEvents_getElem]
    split_ifs <;> simp <;> omega
  · intro i
    rw [hsAux_clientRunEvents_getElem]
    split_ifs <;> simp <;> omega
  · intro i
    rw [hsAux_clientRunEvents_getElem]
    split_ifs <;> simp <;> omega
  · intro i j
    rw [hsAux_clientRunEvents_getElem]
    split_ifs with g1 g2 g3 g4 g5 g6 <;> simp
    · omega
    · omega
    · omega
    · omega
    · omega
    · constructor
      · intro hj
        exact ⟨g6, hj.symm⟩
      · intro hj
        exact hj.2.symm
    · intro h
      omega

/-- C7 witness: with two executors and terminal id fidW, the terminator
publication sits at position 7, directly after the Collector join. -/
theorem hs_C7_witness :
    (clientRunEvents 2 fidW)[7]? = some (CoordEvent.publishTerminator fidW) ∧
    (clientRunEvents 2 fidW)[6]? = some CoordEvent.awaitCollector :=
  ⟨((hs_C7_shutdown_order 2 fidW).2.2.2.2.2.2 7 fidW).mpr ⟨rfl, rfl⟩,
   ((hs_C7_shutdown_order 2 fidW).2.2.2.2.2.1 6).mpr rfl⟩

/-- Every successful scheduler step preserves the relation between the
machine state and the recorded received bundles. -/
theorem hsAux_schedRecInv_step (s s' : SchedulerS) (e : SchedEnv)
    (rec : List (List Task)) (hinv : schedRecInv s rec)
    (hstep : schedulerStep s e = some s') :
    schedRecInv s' (rec ++ recvOf s e) := by
  obtain ⟨st, bd, tks, tk, fid, hist⟩ := s
  obtain ⟨rm, pok⟩ := e
  cases st
  · injection hstep with h
    subst h
    simp only [schedRecInv, recvOf] at hinv ⊢
    simpa using hinv
  · cases rm with
    | empty =>
        injection hstep with h
        subst h
        simp only [schedRecInv, recvOf] at hinv ⊢
        simpa using hinv
    | bundle b =>
        injection hstep with h
        subst h
        simp only [schedRecInv, recvOf] at hinv ⊢
        refine ⟨List.getLast?_concat rec, ?_⟩
        rw [List.dropLast_concat]
        exact hinv
    | disconnect =>
        injection hstep with h
        subst h
        simp only [schedRecInv, recvOf] at hinv ⊢
        simpa using hinv
  · simp only [schedRecInv] at hinv
    obtain ⟨h1, h2⟩ := hinv
    simp only [schedulerStep] at hstep
    cases hl : List.getLast? bd with
    | none => rw [hl] at hstep; cases hstep
    | some last =>
        rw [hl] at hstep
        injection hstep with h
        subst h
        simp only [schedRecInv, recvOf, List.append_nil, lastIdOk, h1]
        exact ⟨last, hl, rfl⟩
  · cases tks with
    | nil =>
        injection hstep with h
        subst h
        simp only [schedRecInv, recvOf, List.append_nil] at hinv ⊢
        exact hinv
    | cons t rest =>
        injection hstep with h
        subst h
        simp only [schedRecInv, recvOf, List.append_nil] at hinv ⊢
        exact hinv
  · cases tk with
    | none => cases hstep
    | some t =>
        cases pok
        · injection hstep with h
          subst h
          simp only [schedRecInv, recvOf, List.append_nil] at hinv ⊢
          exact hinv
        · injection hstep with h
          subst h
          simp only [schedRecInv, recvOf, List.append_nil] at hinv ⊢
          exact hinv
  · injection hstep with h
    subst h
    simp only [schedRecInv, recvOf, List.append_nil] at hinv ⊢
    exact hinv

/-- The scheduler/record relation is an invariant of instrumented runs. -/
theorem hsAux_schedRecInv_run :
    ∀ (envs : List SchedEnv) (s : SchedulerS) (rec : List (List Task))
      (p : SchedulerS × List (List Task)),
      schedRecInv s rec → schedulerRunRec s envs rec = some p →
      schedRecInv p.1 p.2 := by
  intro envs
  induction envs with
  | nil =>
      intro s rec p hinv hrun
      injection hrun with h
      subst h
      exact hinv
  | cons e rest ih =>
      intro s rec p hinv hrun
      rw [schedulerRunRec] at hrun
      cases hstep : schedulerStep s e with
      | none => rw [hstep] at hrun; cases hrun
      | some s1 =>
          rw [hstep] at hrun
          exact ih s1 (rec ++ recvOf s e) p
            (hsAux_schedRecInv_step s s1 e rec hinv hstep) hrun

/-- C1: after any successful scheduler run that halts, the terminal-id
candidate — and hence the id published on `terminator` at shutdown by
register_final_task — is the id of the last task of the last non-null
bundle received on `scheduled`; and the candidate changes only at a
successful UNPACK of a newly received (necessarily non-empty) bundle. -/
theorem hs_C1_terminal_id :
    (∀ (envs : List SchedEnv) (s' : SchedulerS) (rec' : List (List Task))
        (b : List Task),
      schedulerRunRec schedInit envs [] = some (s', rec') →
      s'.state = SchedulerState.HALT →
      rec'.getLast? = some b →
      ∃ t, b.getLast? = some t ∧ s'.final_task_id = some t.id ∧
        registerFinalTask s'.final_task_id = some (t.id.toUTF8.toList)) ∧
    (∀ (s : SchedulerS) (e : SchedEnv) (s' : SchedulerS),
      s.state ≠ SchedulerState.UNPACK → schedulerStep s e = some s' →
      s'.final_task_id = s.final_task_id) := by
  constructor
  · intro envs s' rec' b hrun hhalt hlast
    have hinit : schedRecInv schedInit [] := by
      simp [schedRecInv, schedInit, lastIdOk]
    have hinv := hsAux_schedRecInv_run envs schedInit [] (s', rec') hinit hrun
    rw [schedRecInv, if_neg (by simp [hhalt])] at hinv
    rw [lastIdOk, hlast] at hinv
    obtain ⟨t, ht, hfid⟩ := hinv
    refine ⟨t, ht, hfid, ?_⟩
    rw [hfid]
    rfl
  · intro s e s' hne hstep
    obtain ⟨st, bd, tks, tk, fid, hist⟩ := s
    obtain ⟨rm, pok⟩ := e
    cases st
    · injection hstep with h; subst h; rfl
    · cases rm with
      | empty => injection hstep with h; subst h; rfl
      | bundle b => injection hstep with h; subst h; rfl
      | disconnect => injection hstep with h; subst h; rfl
    · exact absurd rfl hne
    · cases tks with
      | nil => injection hstep with h; subst h; rfl
      | cons t rest => injection hstep with h; subst h; rfl
    · cases tk with
      | none => cases hstep
      | some t =>
          cases pok
          · injection hstep with h; subst h; rfl
          · injection hstep with h; subst h; rfl
    · injection hstep with h; subst h; rfl

/-- C1 witness: after receiving the bundle [taskA, taskB] and the
disconnect sentinel, the scheduler halts holding taskB's id. -/
theorem hs_C1_witness :
    sC1W.final_task_id = some taskB.id ∧
    schedulerRunRec schedInit envsC1W [] = some (sC1W, [[taskA, taskB]]) := by
  obtain ⟨t, ht, hfid, -⟩ :=
    hs_C1_terminal_id.1 envsC1W sC1W [[taskA, taskB]] [taskA, taskB] rfl rfl rfl
  have h2 : some taskB = some t := ht
  refine ⟨?_, rfl⟩
  rw [Option.some.inj h2]
  exact hfid

/-- Every scheduler step under an idle remote queue (no bundle this
step) preserves the bundle-draining invariant. -/
theorem hsAux_schedDrainInv_step (base : List Task) (s s' : SchedulerS)
    (e : SchedEnv) (hre : e.remote = RemoteMsg.empty)
    (hinv : schedDrainInv base s) (hstep : schedulerStep s e = some s') :
    schedDrainInv base s' := by
  obtain ⟨hst, htk, hgr, hsum⟩ := hinv
  obtain ⟨st, bd, tks, tk, fid, hist⟩ := s
  obtain ⟨rm, pok⟩ := e
  simp only at hre
  subst hre
  cases st
  · rcases hst with h | h | h <;> exact SchedulerState.noConfusion h
  · injection hstep with h
    subst h
    refine ⟨Or.inr (Or.inr rfl), fun h => SchedulerState.noConfusion h,
            fun _ => hgr rfl, ?_⟩
    simpa [schedPending] using hsum
  · rcases hst with h | h | h <;> exact SchedulerState.noConfusion h
  · cases tks with
    | nil =>
        injection hstep with h
        subst h
        refine ⟨Or.inr (Or.inr rfl), fun h => SchedulerState.noConfusion h,
                fun _ => rfl, ?_⟩
        simpa [schedPending] using hsum
    | cons t rest =>
        injection hstep with h
        subst h
        refine ⟨Or.inr (Or.inl rfl), fun _ => rfl,
                fun h => SchedulerState.noConfusion h, ?_⟩
        simpa [schedPending] using hsum
  · cases tk with
    | none => cases hstep
    | some t =>
        cases pok
        · injection hstep with h
          subst h
          refine ⟨Or.inr (Or.inl rfl), fun _ => rfl,
                  fun h => SchedulerState.noConfusion h, ?_⟩
          simpa [schedPending] using hsum
        · injection hstep with h
          subst h
          refine ⟨Or.inl rfl, fun h => SchedulerState.noConfusion h,
                  fun h => SchedulerState.noConfusion h, ?_⟩
          simp only [schedPending] at hsum ⊢
          simpa [List.append_assoc] using hsum
  · rcases hst with h | h | h <;> exact SchedulerState.noConfusion h

/-- The bundle-draining invariant holds along any run whose environments
never deliver a bundle. -/
theorem hsAux_schedDrainInv_run (base : List Task) :
    ∀ (envs : List SchedEnv) (s s' : SchedulerS),
      (∀ e ∈ envs, e.remote = RemoteMsg.empty) →
      schedDrainInv base s → schedulerRun s envs = some s' →
      schedDrainInv base s' := by
  intro envs
  induction envs with
  | nil =>
      intro s s' _ hinv hrun
      injection hrun with h
      subst h
      exact hinv
  | cons e rest ih =>
      intro s s' henv hinv hrun
      rw [schedulerRun] at hrun
      cases hstep : schedulerStep s e with
      | none => rw [hstep] at hrun; cases hrun
      | some s1 =>
          rw [hstep] at hrun
          exact ih s1 s' (fun x hx => henv x (List.mem_cons_of_mem e hx))
            (hsAux_schedDrainInv_step base s s1 e (henv e (List.mem_cons_self e rest))
              hinv hstep) hrun

/-- C9: a full `inbound` queue never discards a task — PUT_LOCAL
self-loops holding the same task while the put raises Full — and any run
that unpacks a bundle and returns to GET_REMOTE has pushed exactly that
bundle, in the server's original order, onto `inbound`. -/
theorem hs_C9_no_discard :
    (∀ (s : SchedulerS) (e : SchedEnv) (t : Task),
      s.state = SchedulerState.PUT_LOCAL → s.task = some t → e.putOk = false →
      schedulerStep s e = some s) ∧
    (∀ (s : SchedulerS) (b : List Task) (envs : List SchedEnv) (s' : SchedulerS),
      s.state = SchedulerState.UNPACK → s.bundle = b →
      (∀ e ∈ envs, e.remote = RemoteMsg.empty) →
      schedulerRun s envs = some s' →
      s'.state = SchedulerState.GET_REMOTE →
      s'.inboundHist = s.inboundHist ++ b) := by
  constructor
  · intro s e t hst htk hput
    obtain ⟨st, bd, tks, tk, fid, hist⟩ := s
    obtain ⟨rm, pok⟩ := e
    cases hst
    cases htk
    simp only at hput
    subst hput
    rfl
  · intro s b envs s' hst hbd henv hrun hgr
    obtain ⟨st, bd, tks, tk, fid, hist⟩ := s
    cases hst
    simp only at hbd
    subst hbd
    cases envs with
    | nil =>
        injection hrun with h
        rw [← h] at hgr
        exact absurd hgr (fun hcon => SchedulerState.noConfusion hcon)
    | cons e rest =>
        rw [schedulerRun] at hrun
        simp only [schedulerStep] at hrun
        cases hl : List.getLast? bd with
        | none => rw [hl] at hrun; cases hrun
        | some last =>
            rw [hl] at hrun
            have hinv1 : schedDrainInv (hist ++ bd)
                ⟨SchedulerState.POP_TASK, bd, bd, tk, some last.id, hist⟩ :=
              ⟨Or.inl rfl, fun h => SchedulerState.noConfusion h,
               fun h => SchedulerState.noConfusion h, by simp [schedPending]⟩
            have hinv2 := hsAux_schedDrainInv_run (hist ++ bd) rest _ s'
              (fun x hx => henv x (List.mem_cons_of_mem e hx)) hinv1 hrun
            obtain ⟨-, -, hgr2, hsum⟩ := hinv2
            have htks : s'.tasks = [] := hgr2 hgr
            rw [schedPending, hgr, htks] at hsum
            simpa using hsum

/-- C9 witness: draining the bundle [taskA, taskB] with one Full retry
pushes exactly the bundle, in order. -/
theorem hs_C9_witness :
    sC9W.inboundHist = sUnpackW.inboundHist ++ [taskA, taskB] :=
  hs_C9_no_discard.2 sUnpackW [taskA, taskB] envsC9W sC9W rfl rfl (by decide) rfl rfl

/-- A scheduler that has seen no bundle stays within its idle states
with the terminal-id candidate unset. -/
theorem hsAux_schedIdleInv_step (s s' : SchedulerS) (e : SchedEnv)
    (hre : ∀ b, e.remote ≠ RemoteMsg.bundle b)
    (hinv : schedIdleInv s) (hstep : schedulerStep s e = some s') :
    schedIdleInv s' := by
  obtain ⟨hst, hfid⟩ := hinv
  obtain ⟨st, bd, tks, tk, fid, hist⟩ := s
  obtain ⟨rm, pok⟩ := e
  simp only at hfid
  subst hfid
  cases st
  · injection hstep with h
    subst h
    exact ⟨Or.inr (Or.inl rfl), rfl⟩
  · cases rm with
    | empty =>
        injection hstep with h
        subst h
        exact ⟨Or.inr (Or.inl rfl), rfl⟩
    | bundle b => exact absurd rfl (hre b)
    | disconnect =>
        injection hstep with h
        subst h
        exact ⟨Or.inr (Or.inr rfl), rfl⟩
  · rcases hst with h | h | h <;> exact SchedulerState.noConfusion h
  · rcases hst with h | h | h <;> exact SchedulerState.noConfusion h
  · rcases hst with h | h | h <;> exact SchedulerState.noConfusion h
  · injection hstep with h
    subst h
    exact ⟨Or.inr (Or.inr rfl), rfl⟩

/-- The idle invariant holds along any bundle-free run. -/
theorem hsAux_schedIdleInv_run :
    ∀ (envs : List SchedEnv) (s s' : SchedulerS),
      (∀ e ∈ envs, ∀ b, e.remote ≠ RemoteMsg.bundle b) →
      schedIdleInv s → schedulerRun s envs = some s' →
      schedIdleInv s' := by
  intro envs
  induction envs with
  | nil =>
      intro s s' _ hinv hrun
      injection hrun with h
      subst h
      exact hinv
  | cons e rest ih =>
      intro s s' henv hinv hrun
      rw [schedulerRun] at hrun
      cases hstep : schedulerStep s e with
      | none => rw [hstep] at hrun; cases hrun
      | some s1 =>
          rw [hstep] at hrun
          exact ih s1 s' (fun x hx => henv x (List.mem_cons_of_mem e hx))
            (hsAux_schedIdleInv_step s s1 e (henv e (List.mem_cons_self e rest))
              hinv hstep) hrun

/-- A scheduler in GET_REMOTE that only ever times out halts on the
disconnect sentinel with all fields untouched. -/
theorem hsAux_sched_empty_halt (k : Nat) :
    schedulerRun { schedInit with state := SchedulerState.GET_REMOTE }
        (List.replicate k emptyEnvW ++ [disconnectEnvW]) =
      some { schedInit with state := SchedulerState.HALT } := by
  induction k with
  | zero => rfl
  | succ n ih =>
      rw [List.replicate_succ, List.cons_append, schedulerRun]
      exact ih

/-- C10: if the null sentinel arrives before any non-null bundle, the
scheduler halts with its terminal-id candidate still unset, and
register_final_task then fails (`None.encode()`) instead of publishing;
publication succeeds exactly when the candidate was set. -/
theorem hs_C10_no_bundle_no_terminator :
    (∀ (envs : List SchedEnv) (s' : SchedulerS),
      (∀ e ∈ envs, ∀ b, e.remote ≠ RemoteMsg.bundle b) →
      schedulerRun schedInit envs = some s' →
      s'.final_task_id = none ∧ registerFinalTask s'.final_task_id = none) ∧
    (∀ fid, (registerFinalTask fid).isSome = fid.isSome) ∧
    (∀ k, schedulerRun schedInit
        (emptyEnvW :: (List.replicate k emptyEnvW ++ [disconnectEnvW])) =
      some { schedInit with state := SchedulerState.HALT }) := by
  refine ⟨?_, ?_, ?_⟩
  · intro envs s' henv hrun
    have hinit : schedIdleInv schedInit := ⟨Or.inl rfl, rfl⟩
    have hinv := hsAux_schedIdleInv_run envs schedInit s' henv hinit hrun
    refine ⟨hinv.2, ?_⟩
    rw [hinv.2]
    rfl
  · intro fid
    cases fid <;> rfl
  · intro k
    rw [schedulerRun]
    exact hsAux_sched_empty_halt k

/-- C10 witness: a run seeing only a timeout and the disconnect sentinel
halts with no terminal id, and the publication step yields nothing. -/
theorem hs_C10_witness :
    sC10W.final_task_id = none ∧ registerFinalTask sC10W.final_task_id = none := by
  have h := hs_C10_no_bundle_no_terminator.1 [emptyEnvW, disconnectEnvW] sC10W
    (by
      intro e he b
      rcases List.mem_cons.mp he with rfl | he2
      · exact fun hcon => RemoteMsg.noConfusion hcon
      · rcases List.mem_cons.mp he2 with rfl | he3
        · exact fun hcon => RemoteMsg.noConfusion hcon
        · cases he3)
    rfl
  exact h

/-- C2: contrary to the claim, when the Collector receives the null
sentinel and enters FINALIZE, tasks still held in its pending list are
NOT packed and pushed to `completed`: `finalize` re-runs `put_remote`,
which only pushes the already-packed `bundle` (empty here since
`pack_bundle` never ran), so a task that reached `outbound` and sits in
the pending list at shutdown is discarded.  Concretely, with
bundlesize 2 and bundlewait 100, a run that collects one task and then
the sentinel halts with the task still pending and nothing pushed. -/
theorem hs_C2_finalize_drops_pending :
    (collectorRun 2 100 collInit envsC2W).state = CollectorState.HALT ∧
    (collectorRun 2 100 collInit envsC2W).tasks = [taskA] ∧
    (collectorRun 2 100 collInit envsC2W).completedHist = [] :=
  ⟨rfl, rfl, rfl⟩

/-- C3: from CHECK_BUNDLE the collector advances to PACK_BUNDLE exactly
when the pending list has reached `bundlesize` or the time since
`previous_send` has reached `bundlewait`, and otherwise returns to
GET_LOCAL; moreover `previous_send` only ever changes at START or on a
successful flush (PUT_REMOTE / FINALIZE with a non-empty bundle), so the
wait timer measures time since the last successful flush. -/
theorem hs_C3_check_bundle (bundlesize : Nat) (bundlewait : Int)
    (s : CollectorS) (env : CollEnv) (h : s.state = CollectorState.CHECK_BUNDLE) :
    ((collectorStep bundlesize bundlewait s env).state = CollectorState.PACK_BUNDLE ↔
        (bundlesize ≤ s.tasks.length ∨ bundlewait ≤ env.now - s.previous_send)) ∧
    ((collectorStep bundlesize bundlewait s env).state = CollectorState.GET_LOCAL ↔
        ¬ (bundlesize ≤ s.tasks.length ∨ bundlewait ≤ env.now - s.previous_send)) ∧
    (∀ s' e', (collectorStep bundlesize bundlewait s' e').previous_send ≠ s'.previous_send →
        s'.state = CollectorState.START ∨
          ((s'.state = CollectorState.PUT_REMOTE ∨ s'.state = CollectorState.FINALIZE) ∧
            s'.bundle ≠ [])) := by
  obtain ⟨st, tks, bd, ps, ch⟩ := s
  cases h
  refine ⟨?_, ?_, ?_⟩
  · show (if tks.length ≥ bundlesize then _ else _ : CollectorS).state = _ ↔ _
    split_ifs with h1 h2 <;> simp_all
  · show (if tks.length ≥ bundlesize then _ else _ : CollectorS).state = _ ↔ _
    split_ifs with h1 h2 <;> simp_all
  · intro s' e' hne
    obtain ⟨st', tks', bd', ps', ch'⟩ := s'
    obtain ⟨en', em'⟩ := e'
    cases st'
    · exact Or.inl rfl
    · cases em' <;> simp [collectorStep] at hne
    · simp only [collectorStep] at hne
      split_ifs at hne <;> simp at hne
    · simp [collectorStep] at hne
    · simp only [collectorStep, collectorPutRemote] at hne
      split_ifs at hne with hbd
      · exact Or.inr ⟨Or.inl rfl, hbd⟩
      · simp at hne
    · simp only [collectorStep, collectorPutRemote] at hne
      split_ifs at hne with hbd
      · exact Or.inr ⟨Or.inr rfl, hbd⟩
      · simp at hne
    · simp [collectorStep] at hne

/-- C3 witness: at bundlesize 2, bundlewait 5, with two pending tasks and
one second elapsed, the size branch fires. -/
theorem hs_C3_witness :
    ((collectorStep 2 5 sCheckW envCW).state = CollectorState.PACK_BUNDLE ↔
        (2 ≤ sCheckW.tasks.length ∨ (5 : Int) ≤ envCW.now - sCheckW.previous_send)) ∧
    ((collectorStep 2 5 sCheckW envCW).state = CollectorState.GET_LOCAL ↔
        ¬ (2 ≤ sCheckW.tasks.length ∨ (5 : Int) ≤ envCW.now - sCheckW.previous_send)) ∧
    (∀ s' e', (collectorStep 2 5 s' e').previous_send ≠ s'.previous_send →
        s'.state = CollectorState.START ∨
          ((s'.state = CollectorState.PUT_REMOTE ∨ s'.state = CollectorState.FINALIZE) ∧
            s'.bundle ≠ [])) :=
  hs_C3_check_bundle 2 5 sCheckW envCW rfl

/-- C4 counterexample: with configured bundlesize 2 the local queues are
still created with capacity 1 (`Queue(maxsize=DEFAULT_BUNDLESIZE)`), so
the claimed equality with the configured bundle size fails. -/
theorem hs_C4_counterexample :
    (clientThreadInit 1 2 5 tplW).collector_bundlesize = 2 ∧
    ¬ (clientThreadInit 1 2 5 tplW).inbound_maxsize = 2 ∧
    ¬ (clientThreadInit 1 2 5 tplW).outbound_maxsize = 2 :=
  ⟨rfl, by decide, by decide⟩

/-- C4 (amended): for every client configuration, both local FIFO queues
are created with fixed capacity DEFAULT_BUNDLESIZE (the module default
bundle size), independently of the bundlesize passed to the client,
which is forwarded only to the collector. -/
theorem hs_C4_queue_capacity (num_tasks bundlesize : Nat) (bundlewait : Int)
    (template : String) :
    (clientThreadInit num_tasks bundlesize bundlewait template).inbound_maxsize
        = DEFAULT_BUNDLESIZE ∧
    (clientThreadInit num_tasks bundlesize bundlewait template).outbound_maxsize
        = DEFAULT_BUNDLESIZE ∧
    (clientThreadInit num_tasks bundlesize bundlewait template).collector_bundlesize
        = bundlesize :=
  ⟨rfl, rfl, rfl⟩

end HyperShell
